import Mathlib

/-!
The go-shippo client: request / response / pagination engine.

A shallow embedding of `client/client.go` and `client/address.go`.

The Go standard library (`encoding/json`, `net/http`) and the remote server are
not part of the repository.  They are collected in the record `Env`, over which
every definition is parametric:

* `marshal`        – `json.Marshal` on the input value;
* `newRequest`     – the error of `http.NewRequest` for a method and URL, if any;
* `roundTrip`      – `httpClient.Do` followed by `ioutil.ReadAll`; the index is
                     the number of requests the call has issued before, so that
                     a server may answer the same request differently over time;
* `unmarshalOut`, `unmarshalList` – `json.Unmarshal` into an output value and
                     into a list envelope: the value left in the target and the
                     error, if any.

Go `error` values are built by `fmt.Errorf` only and are modelled by their
message.  Byte slices are modelled as strings; the code inspects them only for
emptiness.
-/

namespace Shippo

/-- The constant `shippoAPIBaseURL`. -/
def shippoAPIBaseURL : String := "https://api.goshippo.com/v1"

/-- The struct `Client`. -/
structure Client where
  privateToken : String
deriving DecidableEq, Repr

/-- NewClient creates a new Shippo API client instance. -/
def NewClient (privateToken : String) : Client := ⟨privateToken⟩

/-- The fields of `http.Request` the client touches.  `Header` is the header
map as an association list with unique keys. -/
structure Request where
  Method : String
  URL : String
  Body : Option String
  Header : List (String × String)
  Close : Bool
deriving DecidableEq, Repr

/-- The method `http.Header.Set`: replace whatever is stored under the key. -/
def headerSet (h : List (String × String)) (k v : String) : List (String × String) :=
  h.filter (fun p => p.1 != k) ++ [(k, v)]

/-- The method `http.Header.Get` (first value stored under the key). -/
def headerGet (h : List (String × String)) (k : String) : Option String :=
  (h.find? (fun p => p.1 == k)).map Prod.snd

/-- Modelled from the spec: the type `models.ListAPIOutput` (the list envelope
with shape results + next), which lives in the `models` package; the fields are
named as `doList` uses them. -/
structure ListAPIOutput where
  Results : List String
  NextPageURL : Option String
deriving DecidableEq, Repr

/-- The composite literal `&models.ListAPIOutput{}`. -/
def ListAPIOutput.zero : ListAPIOutput := ⟨[], none⟩

/-- What `httpClient.Do(req)` followed by `ioutil.ReadAll(res.Body)` produces. -/
inductive Exchange where
  | doError (msg : String)
  | readError (status : Int) (msg : String)
  | response (status : Int) (body : String)
deriving DecidableEq, Repr

/-- The world outside the repository: JSON codec, request constructor, server. -/
structure Env (In Out : Type) where
  marshal : In → Except String String
  newRequest : String → String → Option String
  roundTrip : Nat → Request → Exchange
  unmarshalOut : String → Out → Out × Option String
  unmarshalList : String → ListAPIOutput → ListAPIOutput × Option String
  zeroOut : Out

variable {In Out κ α : Type}

/-- The method `Client.createRequest`. -/
def createRequest (env : Env In Out) (c : Client) (method url : String)
    (bodyObject : Option In) : Except String Request :=
  let reqBody : Except String (Option String) :=
    match bodyObject with
    | none => .ok none
    | some b =>
      match env.marshal b with
      | .error e => .error ("Error marshaling body object: " ++ e)
      | .ok data => .ok (some data)
  match reqBody with
  | .error e => .error e
  | .ok body =>
    match env.newRequest method url with
    | some e => .error ("Error creating HTTP request: " ++ e)
    | none =>
      let h0 : List (String × String) := []
      let h1 := headerSet h0 "Content-Type" "application/json"
      let h2 := headerSet h1 "Accept" "application/json"
      let h3 := headerSet h2 "Authorization" ("ShippoToken " ++ c.privateToken)
      -- no keep-alive
      let h4 := headerSet h3 "Connection" "close"
      .ok ⟨method, url, body, h4, true⟩

/-- The method `Client.executeRequest`: status code, error, and the value left
in the output target (`none` is the nil target).  `idx` counts the requests
issued before this one. -/
def executeRequest (env : Env In Out) (idx : Nat) (req : Request)
    (unmarshal : String → α → α × Option String) (output : Option α) :
    Int × Option String × Option α :=
  match env.roundTrip idx req with
  | .doError e => (0, some ("Error making HTTP request: " ++ e), output)
  | .readError status e => (status, some ("Error reading response body data: " ++ e), output)
  | .response status resData =>
    match output with
    | none => (status, none, none)
    | some o =>
      if resData.length > 0 then
        match unmarshal resData o with
        | (o', some e) => (status, some ("Error unmarshaling response data: " ++ e), some o')
        | (o', none) => (status, none, some o')
      else (status, none, some o)

/-- Result of `Client.do`: returned error, the value left in the output target,
and the requests handed to the HTTP client. -/
structure DoResult (α : Type) where
  err : Option String
  output : Option α
  sent : List Request

/-- The method `Client.do`. -/
def Client.do_ (env : Env In Out) (c : Client) (method path : String) (input : Option In)
    (unmarshal : String → α → α × Option String) (output : Option α) : DoResult α :=
  let url := shippoAPIBaseURL ++ path
  match createRequest env c method url input with
  | .error e => ⟨some ("Error creating request object: " ++ e), output, []⟩
  | .ok req =>
    match executeRequest env 0 req unmarshal output with
    | (status, some e, out) =>
      ⟨some ("Error executing request: [" ++ toString status ++ "] " ++ e), out, [req]⟩
    | (status, none, out) =>
      if status < 200 ∨ status ≥ 300 then
        ⟨some ("Error status returned: " ++ toString status), out, [req]⟩
      else ⟨none, out, [req]⟩

/-- CreateAddress creates a new address object. -/
def Client.CreateAddress (env : Env In Out) (c : Client) (input : In) : Option Out × Option String :=
  let r := c.do_ env "POST" "/addresses/" (some input) env.unmarshalOut (some env.zeroOut)
  (r.output, r.err)

/-- RetrieveAddress retrieves an existing address by object id. -/
def Client.RetrieveAddress (env : Env In Out) (c : Client) (objectID : String) :
    Option Out × Option String :=
  let r := c.do_ env "GET" ("/addresses/" ++ objectID) none env.unmarshalOut (some env.zeroOut)
  (r.output, r.err)

/-- The inner loop of `doList`, `for _, v := range listOutput.Results`: the
callback state afterwards, the items the callback was invoked on, and the
callback error that stopped the loop, if any. -/
def dispatch (outputCallback : κ → String → κ × Option String) :
    κ → List String → κ × List String × Option String
  | st, [] => (st, [], none)
  | st, v :: vs =>
    match outputCallback st v with
    | (st', some e) => (st', [v], some e)
    | (st', none) =>
      let r := dispatch outputCallback st' vs
      (r.1, v :: r.2.1, r.2.2)

/-- The variables of `doList` across iterations of its outer loop, with the two
observation logs: requests handed to the HTTP client and callback arguments. -/
structure ListState (κ : Type) where
  nextURL : String
  cb : κ
  sent : List Request
  calls : List String

/-- One iteration of the outer `for` loop of `doList`.  The second component is
`some r` when the iteration executes `return r` (`r = none` is the nil error
reached through `break`), and `none` when the loop goes round again. -/
def doListIter (env : Env In Out) (c : Client) (method : String) (input : Option In)
    (outputCallback : κ → String → κ × Option String) (s : ListState κ) :
    ListState κ × Option (Option String) :=
  match createRequest env c method s.nextURL input with
  | .error e => (s, some (some ("Error creating request object: " ++ e)))
  | .ok req =>
    let sent := s.sent ++ [req]
    match executeRequest env s.sent.length req env.unmarshalList (some ListAPIOutput.zero) with
    | (status, some e, _) =>
      (⟨s.nextURL, s.cb, sent, s.calls⟩,
        some (some ("Error executing request: [" ++ toString status ++ "] " ++ e)))
    | (status, none, out) =>
      if status < 200 ∨ status ≥ 300 then
        (⟨s.nextURL, s.cb, sent, s.calls⟩,
          some (some ("Error status returned: " ++ toString status)))
      else
        -- the target passed above is never nil
        let listOutput := out.getD ListAPIOutput.zero
        match dispatch outputCallback s.cb listOutput.Results with
        | (st', invoked, some e) =>
          (⟨s.nextURL, st', sent, s.calls ++ invoked⟩,
            some (some ("Error unmarshalling output item: " ++ e)))
        | (st', invoked, none) =>
          match listOutput.NextPageURL with
          | none => (⟨s.nextURL, st', sent, s.calls ++ invoked⟩, some none)
          | some u => (⟨u, st', sent, s.calls ++ invoked⟩, none)

/-- A run of `doList`: the final variables and logs, and `ret = some r` when the
call returned `r`; `ret = none` when the loop is still running after the given
number of iterations. -/
structure ListRun (κ : Type) where
  state : ListState κ
  ret : Option (Option String)

/-- The outer `for` loop of `doList`, run for at most `fuel` iterations. -/
def doListLoop (env : Env In Out) (c : Client) (method : String) (input : Option In)
    (outputCallback : κ → String → κ × Option String) : Nat → ListState κ → ListRun κ
  | 0, s => ⟨s, none⟩
  | fuel + 1, s =>
    match doListIter env c method input outputCallback s with
    | (s', some r) => ⟨s', some r⟩
    | (s', none) => doListLoop env c method input outputCallback fuel s'

/-- The method `Client.doList`, run for at most `fuel` iterations of its loop;
`st0` is the initial state captured by the callback closure. -/
def Client.doList (env : Env In Out) (c : Client) (method path : String) (input : Option In)
    (outputCallback : κ → String → κ × Option String) (st0 : κ) (fuel : Nat) : ListRun κ :=
  doListLoop env c method input outputCallback fuel
    ⟨shippoAPIBaseURL ++ path ++ "?results=25", st0, [], []⟩

/-- The closure passed to `doList` by `ListAllAddresses`; its state is the
captured variable `list`. -/
def listAllAddressesCallback (env : Env In Out) (list : List Out) (v : String) :
    List Out × Option String :=
  match env.unmarshalOut v env.zeroOut with
  | (_, some e) => (list, some e)
  | (item, none) => (list ++ [item], none)

/-- ListAllAddresses lists all addresses.  The result is `none` when the loop
of `doList` is still running after `fuel` iterations. -/
def Client.ListAllAddresses (env : Env In Out) (c : Client) (fuel : Nat) :
    Option (List Out × Option String) :=
  let r := c.doList env "GET" "/addresses/" none (listAllAddressesCallback env) [] fuel
  r.ret.map (fun err => (r.state.cb, err))

/-- The envelope `executeRequest` leaves in a fresh `models.ListAPIOutput` for a
response body: the decoded body, the zero envelope for an empty body, and
`none` when `json.Unmarshal` reports an error. -/
def envelopeOf (env : Env In Out) (body : String) : Option ListAPIOutput :=
  if body.length > 0 then
    match env.unmarshalList body ListAPIOutput.zero with
    | (page, none) => some page
    | (_, some _) => none
  else some ListAPIOutput.zero

/-- The page obtained by the fetch number `idx` (counted from 0) with request
`req`: `some page` when the exchange completes with a status in [200,300) and
an envelope that decodes; `none` on a transport error, a body read error, an
undecodable body or a status outside [200,300). -/
def fetchedPage (env : Env In Out) (idx : Nat) (req : Request) : Option ListAPIOutput :=
  match env.roundTrip idx req with
  | .response status body => if 200 ≤ status ∧ status < 300 then envelopeOf env body else none
  | _ => none

/-- Fetch number `idx` of `url` is issued and yields `page`. -/
def FetchOK (env : Env In Out) (c : Client) (method : String) (input : Option In)
    (idx : Nat) (url : String) (page : ListAPIOutput) : Prop :=
  ∃ req, createRequest env c method url input = .ok req ∧ fetchedPage env idx req = some page

/-- Fetch number `idx` of `url` is issued and fails. -/
def FetchFails (env : Env In Out) (c : Client) (method : String) (input : Option In)
    (idx : Nat) (url : String) : Prop :=
  ∃ req, createRequest env c method url input = .ok req ∧ fetchedPage env idx req = none

/-- Starting with fetch number `idx` at `url`, the server serves `pages` one
after the other, each carrying a next-page URL; the last of them points to
`url'` (and `url' = url` when there are no pages). -/
def Served (env : Env In Out) (c : Client) (method : String) (input : Option In) :
    Nat → String → List ListAPIOutput → String → Prop
  | _, url, [], url' => url = url'
  | idx, url, p :: ps, url' =>
    FetchOK env c method input idx url p ∧
      ∃ u, p.NextPageURL = some u ∧ Served env c method input (idx + 1) u ps url'

/-- The items of a sequence of pages, in page order then intra-page order. -/
def itemsOf (pages : List ListAPIOutput) : List String :=
  (pages.map ListAPIOutput.Results).flatten

/-- The request body `createRequest` attaches for an input. -/
def bodyOf (env : Env In Out) (input : Option In) : Option String :=
  match input with
  | none => none
  | some b => (env.marshal b).toOption

/-- The header map every request built by `createRequest` carries. -/
def fixedHeader (c : Client) : List (String × String) :=
  [("Content-Type", "application/json"), ("Accept", "application/json"),
   ("Authorization", "ShippoToken " ++ c.privateToken), ("Connection", "close")]

/-- The outcome of an iteration whose fetch yields `page`. -/
def iterOnPage (cb : κ → String → κ × Option String) (s : ListState κ) (req : Request)
    (page : ListAPIOutput) : ListState κ × Option (Option String) :=
  match (dispatch cb s.cb page.Results).2.2 with
  | some e =>
    (⟨s.nextURL, (dispatch cb s.cb page.Results).1, s.sent ++ [req],
        s.calls ++ (dispatch cb s.cb page.Results).2.1⟩,
      some (some ("Error unmarshalling output item: " ++ e)))
  | none =>
    match page.NextPageURL with
    | none =>
      (⟨s.nextURL, (dispatch cb s.cb page.Results).1, s.sent ++ [req],
          s.calls ++ (dispatch cb s.cb page.Results).2.1⟩, some none)
    | some u =>
      (⟨u, (dispatch cb s.cb page.Results).1, s.sent ++ [req],
          s.calls ++ (dispatch cb s.cb page.Results).2.1⟩, none)

/-- Every request of the log but the first targets the next-page URL of the
page fetched by the request before it. -/
def Linked (env : Env In Out) (sent : List Request) : Prop :=
  ∀ i r, sent[i + 1]? = some r →
    ∃ ri page, sent[i]? = some ri ∧ fetchedPage env i ri = some page ∧
      page.NextPageURL = some r.URL

/-- What holds of the request log of `doList` at any time. -/
def LogOK (env : Env In Out) (c : Client) (method : String) (input : Option In)
    (start : String) (sent : List Request) : Prop :=
  Linked env sent ∧
  (∀ r ∈ sent, createRequest env c method r.URL input = .ok r) ∧
  (∀ r, sent.head? = some r → r.URL = start)

/-- The invariant of the loop of `doList`: the log is in order and the current
page URL is the first page URL before any fetch, and the next-page URL of the
page fetched last afterwards. -/
def LoopInv (env : Env In Out) (c : Client) (method : String) (input : Option In)
    (start : String) (s : ListState κ) : Prop :=
  LogOK env c method input start s.sent ∧
  (s.sent = [] → s.nextURL = start) ∧
  (∀ r, s.sent.getLast? = some r →
    ∃ page, fetchedPage env (s.sent.length - 1) r = some page ∧
      page.NextPageURL = some s.nextURL)

/-! ## A sample world: the scenarios of the specification -/

/-- Modelled from the spec: the type `models.AddressInput`, which lives in the
`models` package, reduced to the field the scenarios of the spec use. -/
structure AddressInput where
  Name : String
deriving DecidableEq, Repr

/-- Modelled from the spec: the type `models.AddressOutput`, which lives in the
`models` package, reduced to the fields the scenarios of the spec use. -/
structure AddressOutput where
  ObjectID : String
  Name : String
deriving DecidableEq, Repr

/-- A decoder given by a table of bodies it understands: each entry says how the
body updates the target.  Any other body is rejected and the target is left as
it was. -/
def tableUnmarshal (table : List (String × (α → α))) (data : String) (o : α) :
    α × Option String :=
  match table.lookup data with
  | some f => (f o, none)
  | none => (o, some "invalid character looking for beginning of value")

/-- A server given by a table from URLs to exchanges; any other URL is answered
with 404 and an empty body. -/
def tableServer (table : List (String × Exchange)) (_idx : Nat) (req : Request) : Exchange :=
  (table.lookup req.URL).getD (.response 404 "")

/-- The body of the creation scenario: the created address. -/
def addrABC : String := "\x7b\"object_id\":\"abc123\",\"name\":\"A\"\x7d"

/-- A raw list item: the address with object id 1. -/
def item1 : String := "\x7b\"object_id\":\"1\"\x7d"

/-- A raw list item: the address with object id 2. -/
def item2 : String := "\x7b\"object_id\":\"2\"\x7d"

/-- A raw list item: the address with object id 3. -/
def item3 : String := "\x7b\"object_id\":\"3\"\x7d"

/-- The next-page URL carried by the first page of the listing scenario. -/
def page2URL : String := "https://api.test/v1/addresses/?page=2"

/-- The first page URL of `ListAllAddresses`. -/
def listURL : String := "https://api.goshippo.com/v1/addresses/?results=25"

/-- Page 1 of the listing scenario. -/
def body1 : String :=
  "\x7b\"results\":[\x7b\"object_id\":\"1\"\x7d],\"next\":\"https://api.test/v1/addresses/?page=2\"\x7d"

/-- Page 2 of the listing scenario. -/
def body2 : String := "\x7b\"results\":[\x7b\"object_id\":\"2\"\x7d],\"next\":null\x7d"

/-- A first page whose second item is a number, not an address object. -/
def bodyBad : String :=
  "\x7b\"results\":[\x7b\"object_id\":\"1\"\x7d,7,\x7b\"object_id\":\"3\"\x7d],\"next\":\"https://api.test/v1/addresses/?page=2\"\x7d"

/-- A page that points back to the first page URL. -/
def bodyLoop : String :=
  "\x7b\"results\":[],\"next\":\"https://api.goshippo.com/v1/addresses/?results=25\"\x7d"

/-- The sample world around a given server.  The codec knows the bodies above;
every method and URL is accepted by the request constructor. -/
def sampleEnv (server : Nat → Request → Exchange) : Env AddressInput AddressOutput where
  marshal i := .ok ("\x7b\"name\":\"" ++ i.Name ++ "\"\x7d")
  newRequest _ _ := none
  roundTrip := server
  unmarshalOut := tableUnmarshal
    [(addrABC, fun _ => ⟨"abc123", "A"⟩),
     (item1, fun o => ⟨"1", o.Name⟩),
     (item2, fun o => ⟨"2", o.Name⟩),
     (item3, fun o => ⟨"3", o.Name⟩)]
  unmarshalList := tableUnmarshal
    [(body1, fun _ => ⟨[item1], some page2URL⟩),
     (body2, fun _ => ⟨[item2], none⟩),
     (bodyBad, fun _ => ⟨[item1, "7", item3], some page2URL⟩),
     (bodyLoop, fun _ => ⟨[], some listURL⟩)]
  zeroOut := ⟨"", ""⟩

/-- The client of the sample world. -/
def sampleClient : Client := NewClient "secret"

/-- The request `createRequest` builds in the sample world. -/
def sampleRequest (method url : String) (body : Option String) : Request :=
  ⟨method, url, body, fixedHeader sampleClient, true⟩

/-- A server behind a failing gateway: every address URL is answered with
status 502 and an HTML page. -/
def badGatewayEnv : Env AddressInput AddressOutput :=
  sampleEnv (tableServer
    [("https://api.goshippo.com/v1/addresses/abc123", .response 502 "<html>Bad Gateway</html>")])

/-- A server that answers the creation of an address with status 400 and a JSON
object in the body. -/
def badRequestEnv : Env AddressInput AddressOutput :=
  sampleEnv (tableServer [("https://api.goshippo.com/v1/addresses/", .response 400 addrABC)])

/-- A server that answers the creation of an address with status 400 and an
empty body, and the retrieval of address `abc123` with status 404 and an empty
body. -/
def emptyBodyEnv : Env AddressInput AddressOutput :=
  sampleEnv (tableServer [("https://api.goshippo.com/v1/addresses/", .response 400 "")])

/-- A server that answers the creation of an address with status 400 and an
empty body, and every other request, retrievals included, with status 200 and
the address `abc123`. -/
def postOnlyFailsEnv : Env AddressInput AddressOutput :=
  sampleEnv (fun _ req =>
    if req.Method = "POST" then .response 400 "" else .response 200 addrABC)

/-- The creation scenario of the spec: the server answers 201 with the created
address. -/
def createdEnv : Env AddressInput AddressOutput :=
  sampleEnv (tableServer [("https://api.goshippo.com/v1/addresses/", .response 201 addrABC)])

/-- The envelope decoded from `body1`. -/
def page1 : ListAPIOutput := ⟨[item1], some page2URL⟩

/-- The envelope decoded from `body2`. -/
def page2 : ListAPIOutput := ⟨[item2], none⟩

/-- The envelope decoded from `bodyBad`. -/
def pageBad : ListAPIOutput := ⟨[item1, "7", item3], some page2URL⟩

/-- The envelope decoded from `bodyLoop`. -/
def pageLoop : ListAPIOutput := ⟨[], some listURL⟩

/-- The listing scenario of the spec: two pages, the first pointing to the
second. -/
def twoPagesEnv : Env AddressInput AddressOutput :=
  sampleEnv (tableServer [(listURL, .response 200 body1), (page2URL, .response 200 body2)])

/-- A listing whose first page holds an item that is not an address object as
its second item, and carries a next-page URL that the server would serve. -/
def badItemEnv : Env AddressInput AddressOutput :=
  sampleEnv (tableServer [(listURL, .response 200 bodyBad), (page2URL, .response 200 body2)])

/-- A listing whose second page is answered with status 500, the body being an
envelope with one item all the same. -/
def brokenPageEnv : Env AddressInput AddressOutput :=
  sampleEnv (tableServer [(listURL, .response 200 body1), (page2URL, .response 500 body2)])

/-- A server whose only page points back to itself. -/
def loopEnv : Env AddressInput AddressOutput :=
  sampleEnv (tableServer [(listURL, .response 200 bodyLoop)])

/-! ## Lemmas on `createRequest` and `executeRequest` -/

theorem createRequest_ok_iff (env : Env In Out) (c : Client) (method url : String)
    (input : Option In) (req : Request) :
    createRequest env c method url input = .ok req ↔
      (∀ b, input = some b → ∃ data, env.marshal b = .ok data) ∧
      env.newRequest method url = none ∧
      req = ⟨method, url, bodyOf env input, fixedHeader c, true⟩ := by
  unfold createRequest bodyOf fixedHeader
  cases input with
  | none =>
    cases hn : env.newRequest method url <;> simp [headerSet, eq_comm]
  | some b =>
    cases hm : env.marshal b <;> cases hn : env.newRequest method url <;>
      simp [hm, headerSet, Except.toOption, eq_comm]

theorem createRequest_ok_of (env : Env In Out) (c : Client) (method url : String)
    (input : Option In) (hm : ∀ b, input = some b → ∃ data, env.marshal b = .ok data)
    (hn : env.newRequest method url = none) :
    createRequest env c method url input =
      .ok ⟨method, url, bodyOf env input, fixedHeader c, true⟩ :=
  (createRequest_ok_iff env c method url input _).2 ⟨hm, hn, rfl⟩

theorem executeRequest_fetched (env : Env In Out) (idx : Nat) (req : Request)
    (page : ListAPIOutput) (h : fetchedPage env idx req = some page) :
    ∃ status, executeRequest env idx req env.unmarshalList (some ListAPIOutput.zero)
        = (status, none, some page) ∧ ¬ (status < 200 ∨ status ≥ 300) := by
  unfold fetchedPage at h
  unfold executeRequest
  cases hrt : env.roundTrip idx req with
  | doError e => simp [hrt] at h
  | readError st e => simp [hrt] at h
  | response st body =>
    simp only [hrt] at h ⊢
    by_cases hs : 200 ≤ st ∧ st < 300
    · rw [if_pos hs] at h
      unfold envelopeOf at h
      refine ⟨st, ?_, by omega⟩
      by_cases hb : body.length > 0
      · rw [if_pos hb] at h
        rw [if_pos hb]
        rcases hd : env.unmarshalList body ListAPIOutput.zero with ⟨o, _ | e⟩
        · rw [hd] at h
          simp only [Option.some.injEq] at h
          simp [h]
        · rw [hd] at h
          simp at h
      · rw [if_neg hb] at h
        rw [if_neg hb]
        simp only [Option.some.injEq] at h
        simp [h]
    · rw [if_neg hs] at h
      simp at h

theorem executeRequest_failed (env : Env In Out) (idx : Nat) (req : Request)
    (h : fetchedPage env idx req = none) :
    (∃ status e out, executeRequest env idx req env.unmarshalList (some ListAPIOutput.zero)
        = (status, some e, out)) ∨
    (∃ status out, executeRequest env idx req env.unmarshalList (some ListAPIOutput.zero)
        = (status, none, out) ∧ (status < 200 ∨ status ≥ 300)) := by
  unfold fetchedPage at h
  unfold executeRequest
  cases hrt : env.roundTrip idx req with
  | doError e => exact Or.inl ⟨_, _, _, rfl⟩
  | readError st e => exact Or.inl ⟨_, _, _, rfl⟩
  | response st body =>
    simp only [hrt] at h ⊢
    by_cases hb : body.length > 0
    · rw [if_pos hb]
      rcases hd : env.unmarshalList body ListAPIOutput.zero with ⟨o, _ | e⟩
      · right
        refine ⟨st, some o, rfl, ?_⟩
        by_contra hs
        have hs2 : 200 ≤ st ∧ st < 300 := by omega
        rw [if_pos hs2] at h
        simp [envelopeOf, hb, hd] at h
      · exact Or.inl ⟨_, _, _, rfl⟩
    · rw [if_neg hb]
      right
      refine ⟨st, _, rfl, ?_⟩
      by_contra hs
      have hs2 : 200 ≤ st ∧ st < 300 := by omega
      rw [if_pos hs2] at h
      simp [envelopeOf, hb] at h

theorem executeRequest_page (env : Env In Out) (idx : Nat) (req : Request)
    (status : Int) (out : Option ListAPIOutput)
    (h : executeRequest env idx req env.unmarshalList (some ListAPIOutput.zero)
        = (status, none, out))
    (hs : ¬ (status < 200 ∨ status ≥ 300)) :
    fetchedPage env idx req = some (out.getD ListAPIOutput.zero) := by
  have hs2 : 200 ≤ status ∧ status < 300 := by omega
  unfold executeRequest at h
  unfold fetchedPage
  cases hrt : env.roundTrip idx req with
  | doError e => simp [hrt] at h
  | readError st e => simp [hrt] at h
  | response st body =>
    simp only [hrt] at h ⊢
    by_cases hb : body.length > 0
    · rw [if_pos hb] at h
      rcases hd : env.unmarshalList body ListAPIOutput.zero with ⟨o, _ | e⟩
      · rw [hd] at h
        simp only [Prod.mk.injEq, true_and] at h
        obtain ⟨h1, h2⟩ := h
        subst h1 h2
        simp [hs2, envelopeOf, hb, hd]
      · rw [hd] at h
        simp at h
    · rw [if_neg hb] at h
      simp only [Prod.mk.injEq, true_and] at h
      obtain ⟨h1, h2⟩ := h
      subst h1 h2
      simp [hs2, envelopeOf, hb]

/-! ## Lemmas on `dispatch` -/

theorem dispatch_cons_accept (cb : κ → String → κ × Option String) (st st1 : κ)
    (v : String) (vs : List String) (hc : cb st v = (st1, none)) :
    dispatch cb st (v :: vs) =
      ((dispatch cb st1 vs).1, v :: (dispatch cb st1 vs).2.1, (dispatch cb st1 vs).2.2) := by
  rw [dispatch]
  simp [hc]

theorem dispatch_cons_reject (cb : κ → String → κ × Option String) (st st1 : κ)
    (v e : String) (vs : List String) (hc : cb st v = (st1, some e)) :
    dispatch cb st (v :: vs) = (st1, [v], some e) := by
  rw [dispatch]
  simp [hc]

theorem dispatch_invoked_of_accept (cb : κ → String → κ × Option String) (st : κ)
    (items : List String) (h : (dispatch cb st items).2.2 = none) :
    (dispatch cb st items).2.1 = items := by
  induction items generalizing st with
  | nil => rfl
  | cons v vs ih =>
    rcases hc : cb st v with ⟨st1, _ | e⟩
    · rw [dispatch_cons_accept cb st st1 v vs hc] at h ⊢
      simp only at h ⊢
      rw [ih st1 h]
    · rw [dispatch_cons_reject cb st st1 v e vs hc] at h
      simp at h

theorem dispatch_append_accept (cb : κ → String → κ × Option String) (st : κ)
    (a b : List String) (h : (dispatch cb st a).2.2 = none) :
    dispatch cb st (a ++ b) =
      ((dispatch cb (dispatch cb st a).1 b).1, a ++ (dispatch cb (dispatch cb st a).1 b).2.1,
        (dispatch cb (dispatch cb st a).1 b).2.2) := by
  induction a generalizing st with
  | nil => simp [dispatch]
  | cons v vs ih =>
    rw [List.cons_append]
    rcases hc : cb st v with ⟨st1, _ | e⟩
    · rw [dispatch_cons_accept cb st st1 v vs hc] at h
      rw [dispatch_cons_accept cb st st1 v (vs ++ b) hc, dispatch_cons_accept cb st st1 v vs hc]
      simp only at h ⊢
      rw [ih st1 h]
      simp
    · rw [dispatch_cons_reject cb st st1 v e vs hc] at h
      simp at h

theorem dispatch_never_fails (cb : κ → String → κ × Option String)
    (hcb : ∀ st v, (cb st v).2 = none) (st : κ) (items : List String) :
    (dispatch cb st items).2.2 = none := by
  induction items generalizing st with
  | nil => rfl
  | cons v vs ih =>
    rcases hc : cb st v with ⟨st1, _ | e⟩
    · rw [dispatch_cons_accept cb st st1 v vs hc]
      exact ih st1
    · have := hcb st v
      simp [hc] at this

theorem dispatch_reject (cb : κ → String → κ × Option String) (st : κ)
    (a b : List String) (x e : String) (h : (dispatch cb st a).2.2 = none)
    (hx : (cb (dispatch cb st a).1 x).2 = some e) :
    dispatch cb st (a ++ x :: b) = ((cb (dispatch cb st a).1 x).1, a ++ [x], some e) := by
  rw [dispatch_append_accept cb st a (x :: b) h]
  generalize (dispatch cb st a).1 = st1 at hx ⊢
  rcases hc : cb st1 x with ⟨st2, _ | e2⟩
  · simp [hc] at hx
  · simp only [hc, Option.some.injEq] at hx
    rw [dispatch_cons_reject cb st1 st2 x e2 b hc]
    simp [hx]

/-! ## One iteration of the loop of `doList` -/

theorem doListIter_page (env : Env In Out) (c : Client) (method : String) (input : Option In)
    (cb : κ → String → κ × Option String) (s : ListState κ) (req : Request)
    (page : ListAPIOutput)
    (hreq : createRequest env c method s.nextURL input = .ok req)
    (hpage : fetchedPage env s.sent.length req = some page) :
    doListIter env c method input cb s = iterOnPage cb s req page := by
  obtain ⟨status, hex, hs⟩ := executeRequest_fetched env s.sent.length req page hpage
  unfold doListIter iterOnPage
  simp only [hreq, hex, if_neg hs, Option.getD_some]
  rcases hd : dispatch cb s.cb page.Results with ⟨st1, inv, _ | e⟩
  · cases hn : page.NextPageURL <;> simp
  · simp

theorem doListIter_fail (env : Env In Out) (c : Client) (method : String) (input : Option In)
    (cb : κ → String → κ × Option String) (s : ListState κ) (req : Request)
    (hreq : createRequest env c method s.nextURL input = .ok req)
    (hpage : fetchedPage env s.sent.length req = none) :
    ∃ e, doListIter env c method input cb s =
      (⟨s.nextURL, s.cb, s.sent ++ [req], s.calls⟩, some (some e)) := by
  unfold doListIter
  rcases executeRequest_failed env s.sent.length req hpage with
    ⟨status, e, out, hex⟩ | ⟨status, out, hex, hs⟩
  · refine ⟨"Error executing request: [" ++ toString status ++ "] " ++ e, ?_⟩
    simp only [hreq, hex]
  · refine ⟨"Error status returned: " ++ toString status, ?_⟩
    simp only [hreq, hex, if_pos hs]

theorem doListIter_sent (env : Env In Out) (c : Client) (method : String) (input : Option In)
    (cb : κ → String → κ × Option String) (s s' : ListState κ) (r : Option (Option String))
    (h : doListIter env c method input cb s = (s', r)) :
    ((∃ e, createRequest env c method s.nextURL input = .error e) ∧
      s'.sent = s.sent ∧ r ≠ none) ∨
    (∃ req, createRequest env c method s.nextURL input = .ok req ∧ s'.sent = s.sent ++ [req] ∧
      (r = none → ∃ page, fetchedPage env s.sent.length req = some page ∧
        page.NextPageURL = some s'.nextURL)) := by
  cases hreq : createRequest env c method s.nextURL input with
  | error e =>
    left
    unfold doListIter at h
    simp only [hreq, Prod.mk.injEq] at h
    obtain ⟨h1, h2⟩ := h
    subst h1 h2
    exact ⟨⟨e, rfl⟩, rfl, by simp⟩
  | ok req =>
    right
    refine ⟨req, rfl, ?_⟩
    cases hpage : fetchedPage env s.sent.length req with
    | none =>
      obtain ⟨e, he⟩ := doListIter_fail env c method input cb s req hreq hpage
      rw [he] at h
      simp only [Prod.mk.injEq] at h
      obtain ⟨h1, h2⟩ := h
      subst h1 h2
      simp
    | some page =>
      rw [doListIter_page env c method input cb s req page hreq hpage] at h
      unfold iterOnPage at h
      rcases hd : (dispatch cb s.cb page.Results).2.2 with _ | e
      · cases hn : page.NextPageURL with
        | none =>
          simp only [hd, hn, Prod.mk.injEq] at h
          obtain ⟨h1, h2⟩ := h
          subst h1 h2
          simp
        | some u =>
          simp only [hd, hn, Prod.mk.injEq] at h
          obtain ⟨h1, h2⟩ := h
          subst h1 h2
          exact ⟨rfl, fun _ => ⟨page, rfl, hn⟩⟩
      · simp only [hd, Prod.mk.injEq] at h
        obtain ⟨h1, h2⟩ := h
        subst h1 h2
        simp

/-! ## The loop of `doList` -/

theorem dispatch_append_reject (cb : κ → String → κ × Option String) (st : κ)
    (a b : List String) (e : String) (h : (dispatch cb st a).2.2 = some e) :
    dispatch cb st (a ++ b) = dispatch cb st a := by
  induction a generalizing st with
  | nil => simp [dispatch] at h
  | cons v vs ih =>
    rw [List.cons_append]
    rcases hc : cb st v with ⟨st1, _ | e1⟩
    · rw [dispatch_cons_accept cb st st1 v vs hc] at h
      rw [dispatch_cons_accept cb st st1 v (vs ++ b) hc, dispatch_cons_accept cb st st1 v vs hc]
      simp only at h
      rw [ih st1 h]
    · rw [dispatch_cons_reject cb st st1 v e1 (vs ++ b) hc,
        dispatch_cons_reject cb st st1 v e1 vs hc]

theorem dispatch_accept_left (cb : κ → String → κ × Option String) (st : κ)
    (a b : List String) (h : (dispatch cb st (a ++ b)).2.2 = none) :
    (dispatch cb st a).2.2 = none := by
  rcases hd : (dispatch cb st a).2.2 with _ | e
  · rfl
  · rw [dispatch_append_reject cb st a b e hd, hd] at h
    simp at h

theorem itemsOf_cons (p : ListAPIOutput) (ps : List ListAPIOutput) :
    itemsOf (p :: ps) = p.Results ++ itemsOf ps := by
  simp [itemsOf]

theorem doListLoop_return (env : Env In Out) (c : Client) (method : String)
    (input : Option In) (cb : κ → String → κ × Option String) (s s' : ListState κ)
    (r : Option String) (fuel : Nat)
    (h : doListIter env c method input cb s = (s', some r)) :
    doListLoop env c method input cb (fuel + 1) s = ⟨s', some r⟩ := by
  rw [doListLoop, h]

theorem doListLoop_continue (env : Env In Out) (c : Client) (method : String)
    (input : Option In) (cb : κ → String → κ × Option String) (s s' : ListState κ)
    (fuel : Nat) (h : doListIter env c method input cb s = (s', none)) :
    doListLoop env c method input cb (fuel + 1) s =
      doListLoop env c method input cb fuel s' := by
  rw [doListLoop, h]

theorem doListLoop_served (env : Env In Out) (c : Client) (method : String)
    (input : Option In) (cb : κ → String → κ × Option String) (pre : List ListAPIOutput) :
    ∀ (s : ListState κ) (url' : String),
      Served env c method input s.sent.length s.nextURL pre url' →
      (dispatch cb s.cb (itemsOf pre)).2.2 = none →
      ∃ reqs : List Request, reqs.length = pre.length ∧
        ∀ fuel, doListLoop env c method input cb (pre.length + fuel) s =
          doListLoop env c method input cb fuel
            ⟨url', (dispatch cb s.cb (itemsOf pre)).1, s.sent ++ reqs, s.calls ++ itemsOf pre⟩ := by
  induction pre with
  | nil =>
    intro s url' hserved _
    refine ⟨[], rfl, fun fuel => ?_⟩
    have hu : s.nextURL = url' := hserved
    cases s
    simp only at hu
    subst hu
    simp [itemsOf, dispatch]
  | cons p ps ih =>
    intro s url' hserved hacc
    obtain ⟨⟨req, hreq, hpage⟩, u, hnext, hrest⟩ := hserved
    rw [itemsOf_cons] at hacc
    have hacc1 := dispatch_accept_left cb s.cb p.Results (itemsOf ps) hacc
    have hinv := dispatch_invoked_of_accept cb s.cb p.Results hacc1
    have hsplit := dispatch_append_accept cb s.cb p.Results (itemsOf ps) hacc1
    have hiter : doListIter env c method input cb s =
        (⟨u, (dispatch cb s.cb p.Results).1, s.sent ++ [req], s.calls ++ p.Results⟩, none) := by
      rw [doListIter_page env c method input cb s req p hreq hpage]
      unfold iterOnPage
      simp only [hacc1, hnext, hinv]
    have hacc2 : (dispatch cb (dispatch cb s.cb p.Results).1 (itemsOf ps)).2.2 = none := by
      rw [hsplit] at hacc
      exact hacc
    have hlen : (s.sent ++ [req]).length = s.sent.length + 1 := by simp
    obtain ⟨reqs, hreqs, hrun⟩ :=
      ih ⟨u, (dispatch cb s.cb p.Results).1, s.sent ++ [req], s.calls ++ p.Results⟩ url'
        (by simpa only [hlen] using hrest) hacc2
    refine ⟨req :: reqs, by simp [hreqs], fun fuel => ?_⟩
    have hf : (p :: ps).length + fuel = (ps.length + fuel) + 1 := by
      simp only [List.length_cons]
      omega
    rw [hf, doListLoop_continue env c method input cb s _ _ hiter, hrun fuel, itemsOf_cons,
      hsplit]
    simp

theorem doList_served (env : Env In Out) (c : Client) (method path : String)
    (input : Option In) (cb : κ → String → κ × Option String) (st0 : κ)
    (pre : List ListAPIOutput) (u : String)
    (hserved : Served env c method input 0 (shippoAPIBaseURL ++ path ++ "?results=25") pre u)
    (hacc : (dispatch cb st0 (itemsOf pre)).2.2 = none) :
    ∃ reqs : List Request, reqs.length = pre.length ∧
      ∀ fuel, c.doList env method path input cb st0 (pre.length + fuel) =
        doListLoop env c method input cb fuel
          ⟨u, (dispatch cb st0 (itemsOf pre)).1, reqs, itemsOf pre⟩ := by
  obtain ⟨reqs, hlen, hrun⟩ :=
    doListLoop_served env c method input cb pre
      ⟨shippoAPIBaseURL ++ path ++ "?results=25", st0, [], []⟩ u hserved hacc
  refine ⟨reqs, hlen, fun fuel => ?_⟩
  unfold Client.doList
  rw [hrun fuel]
  simp

theorem doList_at_page (env : Env In Out) (c : Client) (method path : String)
    (input : Option In) (cb : κ → String → κ × Option String) (st0 : κ)
    (pre : List ListAPIOutput) (u : String) (page : ListAPIOutput)
    (hserved : Served env c method input 0 (shippoAPIBaseURL ++ path ++ "?results=25") pre u)
    (hacc : (dispatch cb st0 (itemsOf pre)).2.2 = none)
    (hpage : FetchOK env c method input pre.length u page) :
    ∃ (reqs : List Request) (req : Request), reqs.length = pre.length ∧
      ∀ k, c.doList env method path input cb st0 (pre.length + (k + 1)) =
        match iterOnPage cb ⟨u, (dispatch cb st0 (itemsOf pre)).1, reqs, itemsOf pre⟩ req page with
        | (s', some r) => ⟨s', some r⟩
        | (s', none) => doListLoop env c method input cb k s' := by
  obtain ⟨reqs, hlen, hrun⟩ := doList_served env c method path input cb st0 pre u hserved hacc
  obtain ⟨req, hreq, hfetched⟩ := hpage
  refine ⟨reqs, req, hlen, fun k => ?_⟩
  rw [hrun (k + 1), doListLoop,
    doListIter_page env c method input cb ⟨u, _, reqs, itemsOf pre⟩ req page hreq
      (by simpa only [hlen] using hfetched)]

theorem doList_at_failure (env : Env In Out) (c : Client) (method path : String)
    (input : Option In) (cb : κ → String → κ × Option String) (st0 : κ)
    (pre : List ListAPIOutput) (u : String)
    (hserved : Served env c method input 0 (shippoAPIBaseURL ++ path ++ "?results=25") pre u)
    (hacc : (dispatch cb st0 (itemsOf pre)).2.2 = none)
    (hfail : FetchFails env c method input pre.length u) :
    ∃ (reqs : List Request) (req : Request) (e : String), reqs.length = pre.length ∧
      ∀ k, c.doList env method path input cb st0 (pre.length + (k + 1)) =
        ⟨⟨u, (dispatch cb st0 (itemsOf pre)).1, reqs ++ [req], itemsOf pre⟩, some (some e)⟩ := by
  obtain ⟨reqs, hlen, hrun⟩ := doList_served env c method path input cb st0 pre u hserved hacc
  obtain ⟨req, hreq, hfetched⟩ := hfail
  obtain ⟨e, he⟩ := doListIter_fail env c method input cb
    ⟨u, (dispatch cb st0 (itemsOf pre)).1, reqs, itemsOf pre⟩ req hreq
    (by simpa only [hlen] using hfetched)
  refine ⟨reqs, req, e, hlen, fun k => ?_⟩
  rw [hrun (k + 1), doListLoop_return env c method input cb _ _ _ k he]

theorem doList_reject_run (env : Env In Out) (c : Client) (method path : String)
    (input : Option In) (cb : κ → String → κ × Option String) (st0 : κ)
    (pre : List ListAPIOutput) (u : String) (page : ListAPIOutput)
    (a b : List String) (x e : String)
    (hserved : Served env c method input 0 (shippoAPIBaseURL ++ path ++ "?results=25") pre u)
    (hpage : FetchOK env c method input pre.length u page)
    (hres : page.Results = a ++ x :: b)
    (hacc : (dispatch cb st0 (itemsOf pre ++ a)).2.2 = none)
    (hx : (cb (dispatch cb st0 (itemsOf pre ++ a)).1 x).2 = some e) :
    ∃ reqs : List Request, reqs.length = pre.length + 1 ∧
      ∀ k, c.doList env method path input cb st0 (pre.length + (k + 1)) =
        ⟨⟨u, (cb (dispatch cb st0 (itemsOf pre ++ a)).1 x).1, reqs, itemsOf pre ++ a ++ [x]⟩,
          some (some ("Error unmarshalling output item: " ++ e))⟩ := by
  have hacc1 := dispatch_accept_left cb st0 (itemsOf pre) a hacc
  obtain ⟨reqs, req, hlen, hrun⟩ :=
    doList_at_page env c method path input cb st0 pre u page hserved hacc1 hpage
  have hsplit := dispatch_append_accept cb st0 (itemsOf pre) a hacc1
  have hacc2 : (dispatch cb (dispatch cb st0 (itemsOf pre)).1 a).2.2 = none := by
    rw [hsplit] at hacc
    exact hacc
  have hst : (dispatch cb st0 (itemsOf pre ++ a)).1 =
      (dispatch cb (dispatch cb st0 (itemsOf pre)).1 a).1 := by
    rw [hsplit]
  rw [hst] at hx ⊢
  have hd := dispatch_reject cb (dispatch cb st0 (itemsOf pre)).1 a b x e hacc2 hx
  refine ⟨reqs ++ [req], by simp [hlen], fun k => ?_⟩
  rw [hrun k]
  unfold iterOnPage
  simp only [hres, hd, List.append_assoc]

theorem dispatch_listAllAddresses (env : Env In Out) (items : List String)
    (hdec : ∀ v ∈ items, (env.unmarshalOut v env.zeroOut).2 = none) (list : List Out) :
    dispatch (listAllAddressesCallback env) list items =
      (list ++ items.map (fun v => (env.unmarshalOut v env.zeroOut).1), items, none) := by
  induction items generalizing list with
  | nil => simp [dispatch]
  | cons v vs ih =>
    have hv := hdec v (List.mem_cons_self v vs)
    have hc : listAllAddressesCallback env list v =
        (list ++ [(env.unmarshalOut v env.zeroOut).1], none) := by
      unfold listAllAddressesCallback
      rcases hd : env.unmarshalOut v env.zeroOut with ⟨item, _ | e⟩
      · rfl
      · simp [hd] at hv
    rw [dispatch_cons_accept _ list _ v vs hc,
      ih (fun w hw => hdec w (List.mem_cons_of_mem v hw))]
    simp

theorem doListLoop_forever (env : Env In Out) (c : Client) (method : String)
    (input : Option In) (cb : κ → String → κ × Option String)
    (hcb : ∀ st v, (cb st v).2 = none) (U : String → Prop)
    (hU : ∀ idx url, U url →
      ∃ page u, FetchOK env c method input idx url page ∧ page.NextPageURL = some u ∧ U u) :
    ∀ (n : Nat) (s : ListState κ), U s.nextURL →
      (doListLoop env c method input cb n s).ret = none ∧
      (doListLoop env c method input cb n s).state.sent.length = s.sent.length + n := by
  intro n
  induction n with
  | zero =>
    intro s _
    exact ⟨rfl, rfl⟩
  | succ n ih =>
    intro s hs
    obtain ⟨page, u, ⟨req, hreq, hpage⟩, hnext, hu⟩ := hU s.sent.length s.nextURL hs
    have hiter : doListIter env c method input cb s =
        (⟨u, (dispatch cb s.cb page.Results).1, s.sent ++ [req],
          s.calls ++ (dispatch cb s.cb page.Results).2.1⟩, none) := by
      rw [doListIter_page env c method input cb s req page hreq hpage]
      unfold iterOnPage
      simp only [dispatch_never_fails cb hcb s.cb page.Results, hnext]
    rw [doListLoop_continue env c method input cb s _ n hiter]
    obtain ⟨h1, h2⟩ := ih ⟨u, (dispatch cb s.cb page.Results).1, s.sent ++ [req],
      s.calls ++ (dispatch cb s.cb page.Results).2.1⟩ hu
    refine ⟨h1, ?_⟩
    rw [h2]
    simp only [List.length_append, List.length_singleton]
    omega

theorem doList_accept_run (env : Env In Out) (c : Client) (method path : String)
    (input : Option In) (cb : κ → String → κ × Option String) (st0 : κ)
    (pre : List ListAPIOutput) (u : String) (last : ListAPIOutput)
    (hserved : Served env c method input 0 (shippoAPIBaseURL ++ path ++ "?results=25") pre u)
    (hlast : FetchOK env c method input pre.length u last)
    (hnext : last.NextPageURL = none)
    (hacc : (dispatch cb st0 (itemsOf (pre ++ [last]))).2.2 = none) :
    ∃ reqs : List Request, reqs.length = pre.length + 1 ∧
      ∀ k, c.doList env method path input cb st0 (pre.length + (k + 1)) =
        ⟨⟨u, (dispatch cb st0 (itemsOf (pre ++ [last]))).1, reqs, itemsOf (pre ++ [last])⟩,
          some none⟩ := by
  have hitems : itemsOf (pre ++ [last]) = itemsOf pre ++ last.Results := by
    simp [itemsOf]
  rw [hitems] at hacc ⊢
  have hacc1 := dispatch_accept_left cb st0 (itemsOf pre) last.Results hacc
  obtain ⟨reqs, req, hlen, hrun⟩ :=
    doList_at_page env c method path input cb st0 pre u last hserved hacc1 hlast
  have hsplit := dispatch_append_accept cb st0 (itemsOf pre) last.Results hacc1
  have hacc2 : (dispatch cb (dispatch cb st0 (itemsOf pre)).1 last.Results).2.2 = none := by
    rw [hsplit] at hacc
    exact hacc
  have hinv := dispatch_invoked_of_accept cb _ last.Results hacc2
  refine ⟨reqs ++ [req], by simp [hlen], fun k => ?_⟩
  rw [hrun k, hsplit]
  unfold iterOnPage
  simp only [hacc2, hnext, hinv]

/-! ## Single-object calls -/

theorem do_of_response (env : Env In Out) (c : Client) (method path : String)
    (input : Option In) (unmarshal : String → α → α × Option String) (output : Option α)
    (req : Request) (status : Int) (body : String)
    (hreq : createRequest env c method (shippoAPIBaseURL ++ path) input = .ok req)
    (hex : env.roundTrip 0 req = .response status body) :
    c.do_ env method path input unmarshal output =
      match output with
      | none =>
        if status < 200 ∨ status ≥ 300 then
          ⟨some ("Error status returned: " ++ toString status), none, [req]⟩
        else ⟨none, none, [req]⟩
      | some o =>
        if body.length > 0 then
          match (unmarshal body o).2 with
          | some e =>
            ⟨some ("Error executing request: [" ++ toString status ++ "] " ++
              ("Error unmarshaling response data: " ++ e)), some (unmarshal body o).1, [req]⟩
          | none =>
            if status < 200 ∨ status ≥ 300 then
              ⟨some ("Error status returned: " ++ toString status),
                some (unmarshal body o).1, [req]⟩
            else ⟨none, some (unmarshal body o).1, [req]⟩
        else if status < 200 ∨ status ≥ 300 then
          ⟨some ("Error status returned: " ++ toString status), some o, [req]⟩
        else ⟨none, some o, [req]⟩ := by
  unfold Client.do_ executeRequest
  simp only [hreq, hex]
  cases output with
  | none => simp
  | some o =>
    by_cases hb : body.length > 0
    · simp only [if_pos hb]
      rcases hd : unmarshal body o with ⟨o1, _ | e⟩ <;> simp
    · simp only [if_neg hb]

/-- C1 (amended): when an exchange of `Client.do` completes with a status `s`
outside [200,300), the returned error is the status error carrying `s` provided
the output target is nil, the body is empty, or the body decodes into the
target; when the non-empty body does not decode, the returned error is the
request-execution error, which quotes `s` and the decoding error. -/
theorem do_status_error (env : Env In Out) (c : Client) (method path : String)
    (input : Option In) (unmarshal : String → α → α × Option String) (output : Option α)
    (req : Request) (status : Int) (body : String)
    (hreq : createRequest env c method (shippoAPIBaseURL ++ path) input = .ok req)
    (hex : env.roundTrip 0 req = .response status body)
    (hs : status < 200 ∨ status ≥ 300) :
    ((∀ o, output = some o → body.length > 0 → (unmarshal body o).2 = none) →
      (c.do_ env method path input unmarshal output).err =
        some ("Error status returned: " ++ toString status)) ∧
    (∀ o e, output = some o → body.length > 0 → (unmarshal body o).2 = some e →
      (c.do_ env method path input unmarshal output).err =
        some ("Error executing request: [" ++ toString status ++ "] " ++
          ("Error unmarshaling response data: " ++ e))) := by
  rw [do_of_response env c method path input unmarshal output req status body hreq hex]
  constructor
  · intro hdec
    cases output with
    | none => simp [hs]
    | some o =>
      by_cases hb : body.length > 0
      · simp only [if_pos hb, hdec o rfl hb, if_pos hs]
      · simp only [if_neg hb, if_pos hs]
  · intro o e ho hb he
    subst ho
    simp only [if_pos hb, he]

/-- Witness for C1 (amended): a 400 answer with a decodable body to
`CreateAddress`. -/
theorem do_status_error_witness :
    (badRequestEnv.roundTrip 0 (sampleRequest "POST" "https://api.goshippo.com/v1/addresses/"
        (some "\x7b\"name\":\"A\"\x7d")) = .response 400 addrABC) ∧
    (sampleClient.do_ badRequestEnv "POST" "/addresses/" (some ⟨"A"⟩)
        badRequestEnv.unmarshalOut (some badRequestEnv.zeroOut)).err =
      some "Error status returned: 400" :=
  ⟨by decide,
    (do_status_error badRequestEnv sampleClient "POST" "/addresses/" (some ⟨"A"⟩)
      badRequestEnv.unmarshalOut (some badRequestEnv.zeroOut)
      (sampleRequest "POST" "https://api.goshippo.com/v1/addresses/"
        (some "\x7b\"name\":\"A\"\x7d")) 400 addrABC rfl (by decide) (by decide)).1
      (fun o ho _ => by
        cases ho
        decide)⟩

/-- Counterexample to C1 as stated: the exchange of `RetrieveAddress` completes
with status 502 and an HTML body; the returned error is the request-execution
error, not the status error carrying 502. -/
theorem do_status_error_counterexample :
    createRequest badGatewayEnv sampleClient "GET"
        (shippoAPIBaseURL ++ ("/addresses/" ++ "abc123")) none =
      .ok (sampleRequest "GET" "https://api.goshippo.com/v1/addresses/abc123" none) ∧
    badGatewayEnv.roundTrip 0
        (sampleRequest "GET" "https://api.goshippo.com/v1/addresses/abc123" none) =
      .response 502 "<html>Bad Gateway</html>" ∧
    (sampleClient.RetrieveAddress badGatewayEnv "abc123").2 =
      some ("Error executing request: [502] Error unmarshaling response data: " ++
        "invalid character looking for beginning of value") ∧
    (sampleClient.RetrieveAddress badGatewayEnv "abc123").2 ≠
      some ("Error status returned: " ++ toString (502 : Int)) :=
  ⟨rfl, by decide, by decide, by decide⟩

theorem do_output_on_error_status (env : Env In Out) (c : Client) (method path : String)
    (input : Option In) (req : Request) (status : Int) (body : String)
    (hreq : createRequest env c method (shippoAPIBaseURL ++ path) input = .ok req)
    (hex : env.roundTrip 0 req = .response status body)
    (hs : status < 200 ∨ status ≥ 300) :
    (c.do_ env method path input env.unmarshalOut (some env.zeroOut)).output =
      some (if body.length > 0 then (env.unmarshalOut body env.zeroOut).1 else env.zeroOut) ∧
    (c.do_ env method path input env.unmarshalOut (some env.zeroOut)).err ≠ none := by
  rw [do_of_response env c method path input env.unmarshalOut (some env.zeroOut) req status
    body hreq hex]
  simp only [if_pos hs]
  by_cases hb : body.length > 0
  · simp only [if_pos hb]
    cases (env.unmarshalOut body env.zeroOut).2 <;> simp
  · simp only [if_neg hb]
    simp

/-- C2 (amended): when the exchange of `CreateAddress` completes with a status
outside [200,300), the output returned alongside the error is the freshly
allocated zero value if the body is empty; with a non-empty body it is whatever
`json.Unmarshal` of the body left in that zero value, so a body that decodes
does populate it.  The same holds of `RetrieveAddress`, each call under the
conditions of its own exchange only. -/
theorem address_output_on_error_status (env : Env In Out) (c : Client) :
    (∀ (input : In) (req : Request) (status : Int) (body : String),
      createRequest env c "POST" (shippoAPIBaseURL ++ "/addresses/") (some input) = .ok req →
      env.roundTrip 0 req = .response status body →
      (status < 200 ∨ status ≥ 300) →
      (c.CreateAddress env input).1 =
        some (if body.length > 0 then (env.unmarshalOut body env.zeroOut).1
          else env.zeroOut) ∧
      (c.CreateAddress env input).2 ≠ none) ∧
    (∀ (objectID : String) (req : Request) (status : Int) (body : String),
      createRequest env c "GET" (shippoAPIBaseURL ++ ("/addresses/" ++ objectID)) none
        = .ok req →
      env.roundTrip 0 req = .response status body →
      (status < 200 ∨ status ≥ 300) →
      (c.RetrieveAddress env objectID).1 =
        some (if body.length > 0 then (env.unmarshalOut body env.zeroOut).1
          else env.zeroOut) ∧
      (c.RetrieveAddress env objectID).2 ≠ none) := by
  constructor
  · intro input req status body hreq hex hs
    exact do_output_on_error_status env c "POST" "/addresses/" (some input) req status body
      hreq hex hs
  · intro objectID req status body hreq hex hs
    exact do_output_on_error_status env c "GET" ("/addresses/" ++ objectID) none req status
      body hreq hex hs

/-- Witness for C2 (amended): an answer 400 with an empty body to
`CreateAddress` leaves the zero-valued output, also in a world where no
retrieval fails; an answer 404 with an empty body to `RetrieveAddress` does the
same; and an answer 400 with a JSON address in the body populates the output. -/
theorem address_output_on_error_status_witness :
    (sampleClient.CreateAddress emptyBodyEnv ⟨"A"⟩).1 = some ⟨"", ""⟩ ∧
    (sampleClient.CreateAddress postOnlyFailsEnv ⟨"A"⟩).1 = some ⟨"", ""⟩ ∧
    (sampleClient.RetrieveAddress emptyBodyEnv "abc123").1 = some ⟨"", ""⟩ ∧
    (sampleClient.CreateAddress badRequestEnv ⟨"A"⟩).1 = some ⟨"abc123", "A"⟩ :=
  ⟨((address_output_on_error_status emptyBodyEnv sampleClient).1 ⟨"A"⟩
      (sampleRequest "POST" "https://api.goshippo.com/v1/addresses/"
        (some "\x7b\"name\":\"A\"\x7d")) 400 "" rfl (by decide) (by decide)).1,
    ((address_output_on_error_status postOnlyFailsEnv sampleClient).1 ⟨"A"⟩
      (sampleRequest "POST" "https://api.goshippo.com/v1/addresses/"
        (some "\x7b\"name\":\"A\"\x7d")) 400 "" rfl (by decide) (by decide)).1,
    ((address_output_on_error_status emptyBodyEnv sampleClient).2 "abc123"
      (sampleRequest "GET" "https://api.goshippo.com/v1/addresses/abc123" none)
      404 "" rfl (by decide) (by decide)).1,
    ((address_output_on_error_status badRequestEnv sampleClient).1 ⟨"A"⟩
      (sampleRequest "POST" "https://api.goshippo.com/v1/addresses/"
        (some "\x7b\"name\":\"A\"\x7d")) 400 addrABC rfl (by decide) (by decide)).1⟩

/-- Counterexample to C2 as stated: `CreateAddress` receives status 400 with a
JSON object in the body; the output returned alongside the status error is
populated from the body and differs from the zero-valued output. -/
theorem address_output_on_error_status_counterexample :
    badRequestEnv.roundTrip 0
        (sampleRequest "POST" "https://api.goshippo.com/v1/addresses/"
          (some "\x7b\"name\":\"A\"\x7d")) = .response 400 addrABC ∧
    sampleClient.CreateAddress badRequestEnv ⟨"A"⟩ =
      (some ⟨"abc123", "A"⟩, some "Error status returned: 400") ∧
    (sampleClient.CreateAddress badRequestEnv ⟨"A"⟩).1 ≠ some badRequestEnv.zeroOut :=
  ⟨by decide, by decide, by decide⟩

/-- C6: for an input that serializes and a method and URL the request
constructor accepts, if the exchange completes with a status in [200,300) and a
non-empty body that decodes into the output target as `v`, then `Client.do`
returns no error, the output is `v`, and exactly one request was issued: the
one built by `createRequest`. -/
theorem do_success (env : Env In Out) (c : Client) (method path : String)
    (input : Option In) (unmarshal : String → α → α × Option String) (o v : α)
    (status : Int) (body : String)
    (hser : ∀ b, input = some b → ∃ data, env.marshal b = .ok data)
    (hnew : env.newRequest method (shippoAPIBaseURL ++ path) = none)
    (hex : ∀ req, createRequest env c method (shippoAPIBaseURL ++ path) input = .ok req →
      env.roundTrip 0 req = .response status body)
    (hs : 200 ≤ status ∧ status < 300) (hb : body.length > 0)
    (hdec : unmarshal body o = (v, none)) :
    (c.do_ env method path input unmarshal (some o)).err = none ∧
    (c.do_ env method path input unmarshal (some o)).output = some v ∧
    (c.do_ env method path input unmarshal (some o)).sent.length = 1 ∧
    ∃ req, createRequest env c method (shippoAPIBaseURL ++ path) input = .ok req ∧
      (c.do_ env method path input unmarshal (some o)).sent = [req] := by
  have hreq := createRequest_ok_of env c method (shippoAPIBaseURL ++ path) input hser hnew
  have hs2 : ¬ (status < 200 ∨ status ≥ 300) := by omega
  rw [do_of_response env c method path input unmarshal (some o) _ status body hreq
    (hex _ hreq)]
  refine ⟨?_, ?_, ?_, _, hreq, ?_⟩ <;> simp [hb, hdec, hs2]

/-- Witness for C6: the creation scenario of the spec, a 201 answer carrying
the created address with object id `abc123`. -/
theorem do_success_witness :
    (sampleClient.do_ createdEnv "POST" "/addresses/" (some ⟨"A"⟩)
        createdEnv.unmarshalOut (some createdEnv.zeroOut)).err = none ∧
    (sampleClient.do_ createdEnv "POST" "/addresses/" (some ⟨"A"⟩)
        createdEnv.unmarshalOut (some createdEnv.zeroOut)).output = some ⟨"abc123", "A"⟩ ∧
    (sampleClient.do_ createdEnv "POST" "/addresses/" (some ⟨"A"⟩)
        createdEnv.unmarshalOut (some createdEnv.zeroOut)).sent.length = 1 ∧
    (sampleClient.CreateAddress createdEnv ⟨"A"⟩).1.map AddressOutput.ObjectID
      = some "abc123" :=
  have h := do_success createdEnv sampleClient "POST" "/addresses/" (some ⟨"A"⟩)
    createdEnv.unmarshalOut createdEnv.zeroOut ⟨"abc123", "A"⟩ 201 addrABC
    (fun b _ => ⟨_, rfl⟩) rfl
    (fun req hreq => by
      cases hreq
      decide)
    (by decide) (by decide) (by decide)
  ⟨h.1, h.2.1, h.2.2.1, by decide⟩

/-- C9: every request built by `createRequest` for a client made by
`NewClient t` carries exactly the headers Content-Type = application/json,
Accept = application/json, Authorization = ShippoToken, one space, `t`, and
Connection = close, with the close flag set; it targets the given method and
URL; its body is the JSON serialization of the input when an input is present
and absent otherwise. -/
theorem createRequest_headers (env : Env In Out) (t method url : String)
    (input : Option In) (req : Request)
    (h : createRequest env (NewClient t) method url input = .ok req) :
    (NewClient t).privateToken = t ∧
    req.Header = [("Content-Type", "application/json"), ("Accept", "application/json"),
      ("Authorization", "ShippoToken" ++ " " ++ t), ("Connection", "close")] ∧
    headerGet req.Header "Content-Type" = some "application/json" ∧
    headerGet req.Header "Accept" = some "application/json" ∧
    headerGet req.Header "Authorization" = some ("ShippoToken" ++ " " ++ t) ∧
    headerGet req.Header "Connection" = some "close" ∧
    req.Close = true ∧ req.Method = method ∧ req.URL = url ∧
    (input = none → req.Body = none) ∧
    (∀ b, input = some b → ∃ data, env.marshal b = .ok data ∧ req.Body = some data) := by
  obtain ⟨hm, _, hr⟩ := (createRequest_ok_iff env (NewClient t) method url input req).1 h
  subst hr
  have ht : "ShippoToken" ++ " " ++ t = "ShippoToken " ++ t := by
    rw [String.append_assoc]
    rfl
  refine ⟨rfl, ?_, ?_, ?_, ?_, ?_, rfl, rfl, rfl, ?_, ?_⟩
  · simp [fixedHeader, NewClient, ht]
  · simp [fixedHeader, headerGet, List.find?]
  · simp [fixedHeader, headerGet, List.find?]
  · simp [fixedHeader, headerGet, List.find?, NewClient, ht]
  · simp [fixedHeader, headerGet, List.find?]
  · intro hi
    subst hi
    rfl
  · intro b hb
    subst hb
    obtain ⟨data, hd⟩ := hm b rfl
    exact ⟨data, hd, by simp [bodyOf, hd, Except.toOption]⟩

/-- Witness for C9: the request for creating an address with token `secret`. -/
theorem createRequest_headers_witness :
    createRequest createdEnv (NewClient "secret") "POST"
        "https://api.goshippo.com/v1/addresses/" (some ⟨"A"⟩) =
      .ok (sampleRequest "POST" "https://api.goshippo.com/v1/addresses/"
        (some "\x7b\"name\":\"A\"\x7d")) ∧
    headerGet (sampleRequest "POST" "https://api.goshippo.com/v1/addresses/"
        (some "\x7b\"name\":\"A\"\x7d")).Header "Authorization" = some "ShippoToken secret" :=
  ⟨rfl, (createRequest_headers createdEnv "secret" "POST"
    "https://api.goshippo.com/v1/addresses/" (some ⟨"A"⟩) _ rfl).2.2.2.2.1⟩

/-! ## Paginated calls -/

/-- C3: when the server serves the pages `pre ++ [last]` one after the other
(each fetch completing with a 2xx status and a decodable envelope, every page
of `pre` pointing to the next one and `last` carrying no next-page URL) and the
callback never fails, `doList` returns no error, has invoked the callback on
exactly the items of the pages, in page order then intra-page order, and has
performed exactly as many fetches as there are pages (one fetch when `pre` is
empty).  Any number of loop iterations above the page count suffices. -/
theorem doList_all_pages (env : Env In Out) (c : Client) (method path : String)
    (input : Option In) (cb : κ → String → κ × Option String) (st0 : κ)
    (pre : List ListAPIOutput) (last : ListAPIOutput) (u : String) (fuel : Nat)
    (hserved : Served env c method input 0 (shippoAPIBaseURL ++ path ++ "?results=25") pre u)
    (hlast : FetchOK env c method input pre.length u last)
    (hnext : last.NextPageURL = none)
    (hcb : ∀ st v, (cb st v).2 = none)
    (hfuel : (pre ++ [last]).length ≤ fuel) :
    (c.doList env method path input cb st0 fuel).ret = some none ∧
    (c.doList env method path input cb st0 fuel).state.calls = itemsOf (pre ++ [last]) ∧
    (c.doList env method path input cb st0 fuel).state.sent.length = (pre ++ [last]).length ∧
    (c.doList env method path input cb st0 fuel).state.cb =
      (dispatch cb st0 (itemsOf (pre ++ [last]))).1 := by
  obtain ⟨reqs, hlen, hrun⟩ := doList_accept_run env c method path input cb st0 pre u last
    hserved hlast hnext (dispatch_never_fails cb hcb st0 _)
  simp only [List.length_append, List.length_singleton] at hfuel ⊢
  obtain ⟨k, rfl⟩ : ∃ k, fuel = pre.length + (k + 1) := ⟨fuel - (pre.length + 1), by omega⟩
  rw [hrun k]
  exact ⟨rfl, rfl, hlen, rfl⟩

/-- Witness for C3: the listing scenario of the spec; `ListAllAddresses` yields
the items with object ids 1 and 2, in that order, from exactly two fetches. -/
theorem doList_all_pages_witness :
    (sampleClient.doList twoPagesEnv "GET" "/addresses/" none
        (fun (n : Nat) _ => (n + 1, none)) 0 5).ret = some none ∧
    (sampleClient.doList twoPagesEnv "GET" "/addresses/" none
        (fun (n : Nat) _ => (n + 1, none)) 0 5).state.calls = [item1, item2] ∧
    (sampleClient.doList twoPagesEnv "GET" "/addresses/" none
        (fun (n : Nat) _ => (n + 1, none)) 0 5).state.sent.length = 2 ∧
    sampleClient.ListAllAddresses twoPagesEnv 5 = some ([⟨"1", ""⟩, ⟨"2", ""⟩], none) :=
  have h := doList_all_pages twoPagesEnv sampleClient "GET" "/addresses/" none
    (fun (n : Nat) _ => (n + 1, none)) 0 [page1] page2 page2URL 5
    ⟨⟨sampleRequest "GET" listURL none, rfl, by decide⟩, page2URL, rfl, rfl⟩
    ⟨sampleRequest "GET" page2URL none, rfl, by decide⟩ rfl (fun _ _ => rfl) (by decide)
  ⟨h.1, h.2.1, h.2.2.1, by decide⟩

/-- C4: when the pages `pre` have been served with all their items accepted and
the callback fails on the item `x` of the next page, after accepting the items
`a` before it, `doList` returns an error; the callback has been invoked on
exactly the items of `pre`, then `a`, then `x`; and exactly one fetch per page
up to and including the failing page has been performed, whether or not that
page carries a next-page URL. -/
theorem doList_callback_failure (env : Env In Out) (c : Client) (method path : String)
    (input : Option In) (cb : κ → String → κ × Option String) (st0 : κ)
    (pre : List ListAPIOutput) (u : String) (page : ListAPIOutput)
    (a b : List String) (x e : String) (fuel : Nat)
    (hserved : Served env c method input 0 (shippoAPIBaseURL ++ path ++ "?results=25") pre u)
    (hpage : FetchOK env c method input pre.length u page)
    (hres : page.Results = a ++ x :: b)
    (hacc : (dispatch cb st0 (itemsOf pre ++ a)).2.2 = none)
    (hx : (cb (dispatch cb st0 (itemsOf pre ++ a)).1 x).2 = some e)
    (hfuel : pre.length + 1 ≤ fuel) :
    (∃ err, (c.doList env method path input cb st0 fuel).ret = some (some err)) ∧
    (c.doList env method path input cb st0 fuel).state.calls = itemsOf pre ++ a ++ [x] ∧
    (c.doList env method path input cb st0 fuel).state.sent.length = pre.length + 1 := by
  obtain ⟨reqs, hlen, hrun⟩ := doList_reject_run env c method path input cb st0 pre u page
    a b x e hserved hpage hres hacc hx
  obtain ⟨k, rfl⟩ : ∃ k, fuel = pre.length + (k + 1) := ⟨fuel - (pre.length + 1), by omega⟩
  rw [hrun k]
  exact ⟨⟨_, rfl⟩, rfl, hlen⟩

/-- Witness for C4: the callback of `ListAllAddresses` fails on the second of
three items of a first page that carries a next-page URL. -/
theorem doList_callback_failure_witness :
    (∃ err, (sampleClient.doList badItemEnv "GET" "/addresses/" none
        (listAllAddressesCallback badItemEnv) [] 5).ret = some (some err)) ∧
    (sampleClient.doList badItemEnv "GET" "/addresses/" none
        (listAllAddressesCallback badItemEnv) [] 5).state.calls = [item1, "7"] ∧
    (sampleClient.doList badItemEnv "GET" "/addresses/" none
        (listAllAddressesCallback badItemEnv) [] 5).state.sent.length = 1 :=
  doList_callback_failure badItemEnv sampleClient "GET" "/addresses/" none
    (listAllAddressesCallback badItemEnv) [] [] listURL pageBad [item1] [item3] "7"
    "invalid character looking for beginning of value" 5
    rfl ⟨sampleRequest "GET" listURL none, rfl, by decide⟩ rfl (by decide) (by decide)
    (by decide)

/-- C5 (amended): when the callback fails with error `e`, the error returned by
`doList` is a new error whose message is the message of `e` behind the prefix
`Error unmarshalling output item: `. -/
theorem doList_callback_error (env : Env In Out) (c : Client) (method path : String)
    (input : Option In) (cb : κ → String → κ × Option String) (st0 : κ)
    (pre : List ListAPIOutput) (u : String) (page : ListAPIOutput)
    (a b : List String) (x e : String) (fuel : Nat)
    (hserved : Served env c method input 0 (shippoAPIBaseURL ++ path ++ "?results=25") pre u)
    (hpage : FetchOK env c method input pre.length u page)
    (hres : page.Results = a ++ x :: b)
    (hacc : (dispatch cb st0 (itemsOf pre ++ a)).2.2 = none)
    (hx : (cb (dispatch cb st0 (itemsOf pre ++ a)).1 x).2 = some e)
    (hfuel : pre.length + 1 ≤ fuel) :
    (c.doList env method path input cb st0 fuel).ret =
      some (some ("Error unmarshalling output item: " ++ e)) := by
  obtain ⟨reqs, hlen, hrun⟩ := doList_reject_run env c method path input cb st0 pre u page
    a b x e hserved hpage hres hacc hx
  obtain ⟨k, rfl⟩ : ∃ k, fuel = pre.length + (k + 1) := ⟨fuel - (pre.length + 1), by omega⟩
  rw [hrun k]

/-- Witness for C5 (amended): the callback fails with the error `boom` on the
first item of the first page. -/
theorem doList_callback_error_witness :
    (sampleClient.doList twoPagesEnv "GET" "/addresses/" none
        (fun (_ : Unit) _ => ((), some "boom")) () 5).ret =
      some (some "Error unmarshalling output item: boom") :=
  doList_callback_error twoPagesEnv sampleClient "GET" "/addresses/" none
    (fun (_ : Unit) _ => ((), some "boom")) () [] listURL page1 [] [] item1 "boom" 5
    rfl ⟨sampleRequest "GET" listURL none, rfl, by decide⟩ rfl rfl rfl (by decide)

/-- Counterexample to C5 as stated: the callback fails with the error `boom`;
the error returned by `doList` is not `boom`. -/
theorem doList_callback_error_counterexample :
    (fun (_ : Unit) (_ : String) => ((), some "boom")) () item1 = ((), some "boom") ∧
    (sampleClient.doList twoPagesEnv "GET" "/addresses/" none
        (fun (_ : Unit) _ => ((), some "boom")) () 5).ret ≠ some (some "boom") ∧
    (sampleClient.doList twoPagesEnv "GET" "/addresses/" none
        (fun (_ : Unit) _ => ((), some "boom")) () 5).state.calls = [item1] :=
  ⟨rfl, by decide, by decide⟩

/-- C7: when the pages `pre` have been served with all their items accepted by
the callback and the next fetch fails (transport error, body read error,
undecodable body, or status outside [200,300)), `doList` returns an error after
exactly one fetch per page of `pre` plus the failing one; the callback has been
invoked on exactly the items of `pre`, in order, its effects are kept, and it
has seen no item of the failing page.  For `ListAllAddresses`, whose callback
accepts the items that decode, the result is the list of the decoded items of
`pre` together with the error. -/
theorem doList_fetch_failure (env : Env In Out) (c : Client) (method path : String)
    (input : Option In) (cb : κ → String → κ × Option String) (st0 : κ)
    (pre : List ListAPIOutput) (u : String) (fuel : Nat)
    (hserved : Served env c method input 0 (shippoAPIBaseURL ++ path ++ "?results=25") pre u)
    (hacc : (dispatch cb st0 (itemsOf pre)).2.2 = none)
    (hfail : FetchFails env c method input pre.length u)
    (hfuel : pre.length + 1 ≤ fuel) :
    (∃ err, (c.doList env method path input cb st0 fuel).ret = some (some err)) ∧
    (c.doList env method path input cb st0 fuel).state.sent.length = pre.length + 1 ∧
    (c.doList env method path input cb st0 fuel).state.calls = itemsOf pre ∧
    (c.doList env method path input cb st0 fuel).state.cb = (dispatch cb st0 (itemsOf pre)).1 ∧
    (method = "GET" → path = "/addresses/" → input = none →
      (∀ v ∈ itemsOf pre, (env.unmarshalOut v env.zeroOut).2 = none) →
      ∃ err, c.ListAllAddresses env fuel =
        some ((itemsOf pre).map (fun v => (env.unmarshalOut v env.zeroOut).1), some err)) := by
  obtain ⟨k, rfl⟩ : ∃ k, fuel = pre.length + (k + 1) := ⟨fuel - (pre.length + 1), by omega⟩
  refine ⟨?_, ?_⟩
  · obtain ⟨reqs, req, e, hlen, hrun⟩ :=
      doList_at_failure env c method path input cb st0 pre u hserved hacc hfail
    rw [hrun k]
    exact ⟨e, rfl⟩
  refine ⟨?_, ?_⟩
  · obtain ⟨reqs, req, e, hlen, hrun⟩ :=
      doList_at_failure env c method path input cb st0 pre u hserved hacc hfail
    rw [hrun k]
    simp [hlen]
  refine ⟨?_, ?_⟩
  · obtain ⟨reqs, req, e, hlen, hrun⟩ :=
      doList_at_failure env c method path input cb st0 pre u hserved hacc hfail
    rw [hrun k]
  refine ⟨?_, ?_⟩
  · obtain ⟨reqs, req, e, hlen, hrun⟩ :=
      doList_at_failure env c method path input cb st0 pre u hserved hacc hfail
    rw [hrun k]
  · intro hm hp hi hdec
    subst hm hp hi
    have hd := dispatch_listAllAddresses env (itemsOf pre) hdec []
    obtain ⟨reqs, req, e, hlen, hrun⟩ :=
      doList_at_failure env c "GET" "/addresses/" none (listAllAddressesCallback env) [] pre u
        hserved (by rw [hd]) hfail
    refine ⟨e, ?_⟩
    unfold Client.ListAllAddresses
    simp only [hrun k, hd, Option.map_some', List.nil_append]

/-- Witness for C7: the second page of a listing is answered with status 500
and a body that decodes to an envelope with one item; `ListAllAddresses`
returns the item of the first page and the error, after two fetches. -/
theorem doList_fetch_failure_witness :
    (sampleClient.doList brokenPageEnv "GET" "/addresses/" none
        (listAllAddressesCallback brokenPageEnv) [] 5).state.sent.length = 2 ∧
    (sampleClient.doList brokenPageEnv "GET" "/addresses/" none
        (listAllAddressesCallback brokenPageEnv) [] 5).state.calls = [item1] ∧
    envelopeOf brokenPageEnv body2 = some page2 ∧
    sampleClient.ListAllAddresses brokenPageEnv 5 =
      some ([⟨"1", ""⟩], some "Error status returned: 500") :=
  have h := doList_fetch_failure brokenPageEnv sampleClient "GET" "/addresses/" none
    (listAllAddressesCallback brokenPageEnv) [] [page1] page2URL 5
    ⟨⟨sampleRequest "GET" listURL none, rfl, by decide⟩, page2URL, rfl, rfl⟩
    (by decide) ⟨sampleRequest "GET" page2URL none, rfl, by decide⟩ (by decide)
  ⟨h.2.1, h.2.2.1, by decide, by decide⟩

/-- C10: `doList` has no page limit and no cycle detection.  With a callback
that never fails: against a server that answers every fetch of a URL it has
handed out (`U`) with a page carrying a next-page URL it will serve again,
`doList` has not returned after any number `n` of loop iterations and has then
issued exactly `n` fetches, so that fetch `n + 1` follows; conversely, when the
server serves the pages `pre` and then a page without next-page URL, `doList`
returns without error right after fetching that page. -/
theorem doList_no_page_limit (env : Env In Out) (c : Client) (method path : String)
    (input : Option In) (cb : κ → String → κ × Option String) (st0 : κ)
    (hcb : ∀ st v, (cb st v).2 = none) :
    (∀ U : String → Prop, U (shippoAPIBaseURL ++ path ++ "?results=25") →
      (∀ idx url, U url →
        ∃ page u, FetchOK env c method input idx url page ∧ page.NextPageURL = some u ∧ U u) →
      ∀ n, (c.doList env method path input cb st0 n).ret = none ∧
        (c.doList env method path input cb st0 n).state.sent.length = n) ∧
    (∀ (pre : List ListAPIOutput) (last : ListAPIOutput) (u : String) (fuel : Nat),
      Served env c method input 0 (shippoAPIBaseURL ++ path ++ "?results=25") pre u →
      FetchOK env c method input pre.length u last → last.NextPageURL = none →
      pre.length + 1 ≤ fuel →
      (c.doList env method path input cb st0 fuel).ret = some none ∧
        (c.doList env method path input cb st0 fuel).state.sent.length = pre.length + 1) := by
  constructor
  · intro U hstart hU n
    have h := doListLoop_forever env c method input cb hcb U hU n
      ⟨shippoAPIBaseURL ++ path ++ "?results=25", st0, [], []⟩ hstart
    unfold Client.doList
    simpa using h
  · intro pre last u fuel hserved hlast hnext hfuel
    obtain ⟨reqs, hlen, hrun⟩ := doList_accept_run env c method path input cb st0 pre u last
      hserved hlast hnext (dispatch_never_fails cb hcb st0 _)
    obtain ⟨k, rfl⟩ : ∃ k, fuel = pre.length + (k + 1) := ⟨fuel - (pre.length + 1), by omega⟩
    rw [hrun k]
    exact ⟨rfl, hlen⟩

/-- Witness for C10: a server whose page always points back to the first page
URL keeps `doList` fetching for ever; the two-page listing ends after the
second fetch. -/
theorem doList_no_page_limit_witness :
    (∀ n, (sampleClient.doList loopEnv "GET" "/addresses/" none
        (fun (_ : Unit) _ => ((), none)) () n).ret = none ∧
      (sampleClient.doList loopEnv "GET" "/addresses/" none
        (fun (_ : Unit) _ => ((), none)) () n).state.sent.length = n) ∧
    ((sampleClient.doList twoPagesEnv "GET" "/addresses/" none
        (fun (_ : Unit) _ => ((), none)) () 7).ret = some none ∧
      (sampleClient.doList twoPagesEnv "GET" "/addresses/" none
        (fun (_ : Unit) _ => ((), none)) () 7).state.sent.length = 2) :=
  ⟨(doList_no_page_limit loopEnv sampleClient "GET" "/addresses/" none
      (fun (_ : Unit) _ => ((), none)) () (fun _ _ => rfl)).1 (fun url => url = listURL) rfl
      (fun idx url hurl =>
        ⟨pageLoop, listURL, ⟨sampleRequest "GET" url none, rfl, by
          subst hurl
          exact (by decide :
            fetchedPage loopEnv 0 (sampleRequest "GET" listURL none) = some pageLoop)⟩,
          rfl, rfl⟩),
    (doList_no_page_limit twoPagesEnv sampleClient "GET" "/addresses/" none
      (fun (_ : Unit) _ => ((), none)) () (fun _ _ => rfl)).2 [page1] page2 page2URL 7
      ⟨⟨sampleRequest "GET" listURL none, rfl, by decide⟩, page2URL, rfl, rfl⟩
      ⟨sampleRequest "GET" page2URL none, rfl, by decide⟩ rfl (by decide)⟩

/-! ## The request log of `doList` -/

theorem createRequest_url (env : Env In Out) (c : Client) (method url : String)
    (input : Option In) (req : Request)
    (h : createRequest env c method url input = .ok req) :
    req.URL = url ∧ req.Method = method ∧ req.Body = bodyOf env input := by
  obtain ⟨_, _, hr⟩ := (createRequest_ok_iff env c method url input req).1 h
  subst hr
  exact ⟨rfl, rfl, rfl⟩

theorem logOK_snoc (env : Env In Out) (c : Client) (method : String) (input : Option In)
    (start : String) (s : ListState κ) (req : Request)
    (hinv : LoopInv env c method input start s)
    (hreq : createRequest env c method s.nextURL input = .ok req) :
    LogOK env c method input start (s.sent ++ [req]) := by
  obtain ⟨⟨hlinked, hbuilt, hhead⟩, hnil, hlast⟩ := hinv
  have hurl := (createRequest_url env c method s.nextURL input req hreq).1
  refine ⟨?_, ?_, ?_⟩
  · intro i r hr
    by_cases hi : i + 1 < s.sent.length
    · rw [List.getElem?_append_left hi] at hr
      rw [List.getElem?_append_left (by omega)]
      exact hlinked i r hr
    · by_cases hi2 : i + 1 = s.sent.length
      · rw [hi2, List.getElem?_concat_length] at hr
        simp only [Option.some.injEq] at hr
        subst hr
        have hget : s.sent.getLast? = s.sent[i]? := by
          rw [List.getLast?_eq_getElem?]
          congr 1
          omega
        have hlt : i < s.sent.length := by omega
        have hsome : s.sent[i]? = some (s.sent[i]) := List.getElem?_eq_getElem hlt
        obtain ⟨page, hp, hn⟩ := hlast _ (hget.trans hsome)
        refine ⟨s.sent[i], page, ?_, ?_, ?_⟩
        · rw [List.getElem?_append_left hlt]
          exact hsome
        · have : s.sent.length - 1 = i := by omega
          rw [this] at hp
          exact hp
        · rw [hn, hurl]
      · rw [List.getElem?_append_right (by omega)] at hr
        have : i + 1 - s.sent.length = (i - s.sent.length) + 1 := by omega
        rw [this] at hr
        simp at hr
  · intro r hr
    rcases List.mem_append.1 hr with h | h
    · exact hbuilt r h
    · simp only [List.mem_singleton] at h
      subst h
      rw [hurl]
      exact hreq
  · intro r hr
    cases hs : s.sent with
    | nil =>
      rw [hs] at hr
      simp only [List.nil_append, List.head?_cons, Option.some.injEq] at hr
      subst hr
      rw [hurl]
      exact hnil hs
    | cons a l =>
      rw [hs] at hr
      apply hhead
      rw [hs]
      simpa using hr

theorem doListLoop_log (env : Env In Out) (c : Client) (method : String)
    (input : Option In) (cb : κ → String → κ × Option String) (start : String) :
    ∀ (fuel : Nat) (s : ListState κ), LoopInv env c method input start s →
      LogOK env c method input start (doListLoop env c method input cb fuel s).state.sent := by
  intro fuel
  induction fuel with
  | zero =>
    intro s hinv
    exact hinv.1
  | succ n ih =>
    intro s hinv
    rcases hiter : doListIter env c method input cb s with ⟨s', r⟩
    have hlog : LogOK env c method input start s'.sent ∧
        (r = none → LoopInv env c method input start s') := by
      rcases doListIter_sent env c method input cb s s' r hiter with
        ⟨_, hsame, hr⟩ | ⟨req, hreq, hsent, hlink⟩
      · rw [hsame]
        exact ⟨hinv.1, fun h => absurd h hr⟩
      · have hok := logOK_snoc env c method input start s req hinv hreq
        rw [← hsent] at hok
        refine ⟨hok, fun hnone => ⟨hok, ?_, ?_⟩⟩
        · intro hnil
          rw [hsent] at hnil
          simp at hnil
        · intro r' hr'
          rw [hsent, List.getLast?_concat] at hr'
          simp only [Option.some.injEq] at hr'
          subst hr'
          obtain ⟨page, hp, hn⟩ := hlink hnone
          refine ⟨page, ?_, hn⟩
          rw [hsent]
          simpa using hp
    cases r with
    | none =>
      rw [doListLoop_continue env c method input cb s s' n hiter]
      exact ih s' (hlog.2 rfl)
    | some r =>
      rw [doListLoop_return env c method input cb s s' r n hiter]
      exact hlog.1

theorem doListLoop_first (env : Env In Out) (c : Client) (method : String)
    (input : Option In) (cb : κ → String → κ × Option String) :
    ∀ (fuel : Nat) (s : ListState κ) (r : Request), s.sent.head? = some r →
      (doListLoop env c method input cb fuel s).state.sent.head? = some r := by
  intro fuel
  induction fuel with
  | zero =>
    intro s r h
    exact h
  | succ n ih =>
    intro s r h
    rcases hiter : doListIter env c method input cb s with ⟨s', ret⟩
    have hhead : s'.sent.head? = some r := by
      rcases doListIter_sent env c method input cb s s' ret hiter with
        ⟨_, hsame, _⟩ | ⟨req, _, hsent, _⟩
      · rw [hsame]
        exact h
      · rw [hsent, List.head?_append, h]
        rfl
    cases ret with
    | none =>
      rw [doListLoop_continue env c method input cb s s' n hiter]
      exact ih s' r hhead
    | some ret =>
      rw [doListLoop_return env c method input cb s s' ret n hiter]
      exact hhead

/-- C8: in the log of the requests issued by `doList`, at any point of its
run, the first request targets exactly base URL + path + `?results=25` (and is
the request built for that URL, issued as soon as the loop runs); every later
request targets exactly the next-page URL of the envelope fetched by the
request before it; and every request carries the method and the input body of
the call, hence those of the first request. -/
theorem doList_request_urls (env : Env In Out) (c : Client) (method path : String)
    (input : Option In) (cb : κ → String → κ × Option String) (st0 : κ) (fuel : Nat) :
    (∀ r, (c.doList env method path input cb st0 fuel).state.sent.head? = some r →
      r.URL = shippoAPIBaseURL ++ path ++ "?results=25") ∧
    (∀ req, 0 < fuel →
      createRequest env c method (shippoAPIBaseURL ++ path ++ "?results=25") input = .ok req →
      (c.doList env method path input cb st0 fuel).state.sent.head? = some req) ∧
    (∀ i r, (c.doList env method path input cb st0 fuel).state.sent[i + 1]? = some r →
      ∃ ri page, (c.doList env method path input cb st0 fuel).state.sent[i]? = some ri ∧
        fetchedPage env i ri = some page ∧ page.NextPageURL = some r.URL) ∧
    (∀ r ∈ (c.doList env method path input cb st0 fuel).state.sent,
      r.Method = method ∧ r.Body = bodyOf env input) ∧
    (∀ r0, (c.doList env method path input cb st0 fuel).state.sent.head? = some r0 →
      ∀ r ∈ (c.doList env method path input cb st0 fuel).state.sent,
        r.Method = r0.Method ∧ r.Body = r0.Body) := by
  have hinv : LoopInv env c method input (shippoAPIBaseURL ++ path ++ "?results=25")
      (⟨shippoAPIBaseURL ++ path ++ "?results=25", st0, [], []⟩ : ListState κ) := by
    refine ⟨⟨?_, ?_, ?_⟩, fun _ => rfl, ?_⟩
    · intro i r hr
      simp at hr
    · intro r hr
      simp at hr
    · intro r hr
      simp at hr
    · intro r hr
      simp at hr
  obtain ⟨hlinked, hbuilt, hhead⟩ := doListLoop_log env c method input cb
    (shippoAPIBaseURL ++ path ++ "?results=25") fuel _ hinv
  have hmb : ∀ r ∈ (c.doList env method path input cb st0 fuel).state.sent,
      r.Method = method ∧ r.Body = bodyOf env input := fun r hr =>
    (createRequest_url env c method r.URL input r (hbuilt r hr)).2
  refine ⟨hhead, ?_, hlinked, hmb, ?_⟩
  · intro req hfuel hreq
    obtain ⟨n, rfl⟩ : ∃ n, fuel = n + 1 := ⟨fuel - 1, by omega⟩
    unfold Client.doList
    rcases hiter : doListIter env c method input cb
      (⟨shippoAPIBaseURL ++ path ++ "?results=25", st0, [], []⟩ : ListState κ) with ⟨s', ret⟩
    have hs' : s'.sent.head? = some req := by
      rcases doListIter_sent env c method input cb _ s' ret hiter with
        ⟨⟨e, he⟩, _, _⟩ | ⟨req', hreq', hsent, _⟩
      · simp only at he
        rw [hreq] at he
        simp at he
      · simp only at hreq'
        rw [hreq] at hreq'
        simp only [Except.ok.injEq] at hreq'
        subst hreq'
        rw [hsent]
        rfl
    cases ret with
    | none =>
      rw [doListLoop_continue env c method input cb _ s' n hiter]
      exact doListLoop_first env c method input cb n s' req hs'
    | some ret =>
      rw [doListLoop_return env c method input cb _ s' ret n hiter]
      exact hs'
  · intro r0 hr0 r hr
    have h0 := hmb r0 (List.mem_of_mem_head? hr0)
    have h1 := hmb r hr
    exact ⟨h1.1.trans h0.1.symm, h1.2.trans h0.2.symm⟩

/-- Witness for C8: in the listing scenario of the spec the second request
targets the next-page URL of the first page as it stands, with the method and
the absent body of the first request. -/
theorem doList_request_urls_witness :
    (sampleClient.doList twoPagesEnv "GET" "/addresses/" none
        (listAllAddressesCallback twoPagesEnv) [] 5).state.sent =
      [sampleRequest "GET" "https://api.goshippo.com/v1/addresses/?results=25" none,
       sampleRequest "GET" "https://api.test/v1/addresses/?page=2" none] ∧
    ∃ ri page, (sampleClient.doList twoPagesEnv "GET" "/addresses/" none
        (listAllAddressesCallback twoPagesEnv) [] 5).state.sent[0]? = some ri ∧
      fetchedPage twoPagesEnv 0 ri = some page ∧
      page.NextPageURL = some (sampleRequest "GET" page2URL none).URL :=
  ⟨by decide,
    (doList_request_urls twoPagesEnv sampleClient "GET" "/addresses/" none
      (listAllAddressesCallback twoPagesEnv) [] 5).2.2.1 0
      (sampleRequest "GET" page2URL none) (by decide)⟩

end Shippo
